import Mathlib

/- Verification of the classification core of job_application_tracker.py.
   Strings are modelled as lists of characters; Python str.lower / str.upper
   are modelled on the ASCII range via Char.toLower / Char.toUpper, and the
   regex character classes are modelled on the ASCII range as well. -/

/-- Character list of a string literal. -/
def chars (s : String) : List Char := s.data

/-- Python regex whitespace class (ASCII range). -/
def isSpacePy (c : Char) : Bool :=
  c == ' ' || c == '\t' || c == '\n' || c == '\r' || c == '\x0b' || c == '\x0c'

/-- Python regex word-character class (ASCII range). -/
def isWordChar (c : Char) : Bool := c.isAlphanum || c == '_'

/-- Separator class of the extraction regexes: dash, en-dash or pipe. -/
def isDashPipe (c : Char) : Bool := c == '-' || c == '–' || c == '|'

/-- Character class of the domain label regex. -/
def isWordDash (c : Char) : Bool := isWordChar c || c == '-'

/-- Character class of the capture groups of the subject/role regexes. -/
def wordSpace (c : Char) : Bool := isWordChar c || isSpacePy c

/-- Python str.lower (ASCII model). -/
def pyLower (l : List Char) : List Char := l.map Char.toLower

/-- Auxiliary loop of Python str.title: the flag records whether the previous
character was cased. -/
def pyTitleAux : Bool → List Char → List Char
  | _, [] => []
  | prevCased, c :: rest =>
    if c.isAlpha then
      (if prevCased then c.toLower else c.toUpper) :: pyTitleAux true rest
    else
      c :: pyTitleAux false rest

/-- Python str.title (ASCII model). -/
def pyTitle (l : List Char) : List Char := pyTitleAux false l

/-- Python str.strip with no argument: remove whitespace at both ends. -/
def pyStrip (l : List Char) : List Char :=
  ((l.dropWhile isSpacePy).reverse.dropWhile isSpacePy).reverse

/-- Python substring containment (the `in` operator on strings). -/
def containsSub (needle : List Char) : List Char → Bool
  | [] => needle.isEmpty
  | c :: rest => needle.isPrefixOf (c :: rest) || containsSub needle rest

/-- Fuel-driven loop of Python str.replace(old, "") for nonempty `old`:
remove every non-overlapping occurrence, scanning left to right. -/
def removeAllFuel (old : List Char) : Nat → List Char → List Char
  | 0, s => s
  | _ + 1, [] => []
  | fuel + 1, c :: rest =>
    if old ≠ [] ∧ old.isPrefixOf (c :: rest) then
      removeAllFuel old fuel ((c :: rest).drop old.length)
    else
      c :: removeAllFuel old fuel rest

/-- Python str.replace(old, ""). -/
def removeAll (old s : List Char) : List Char := removeAllFuel old s.length s

/-- The chained .replace calls of extract_company stripping the four
applicant-tracking-system vendor names, in source order. -/
def stripVendors (l : List Char) : List Char :=
  removeAll (chars "myworkday")
    (removeAll (chars "workday")
      (removeAll (chars "lever")
        (removeAll (chars "greenhouse") l)))

/-- Case-insensitive literal prefix test: the pattern is given lower-cased. -/
def ciStarts : List Char → List Char → Bool
  | [], _ => true
  | _ :: _, [] => false
  | p :: ps, c :: cs => (p == c.toLower) && ciStarts ps cs

/-- Python regex `$` without MULTILINE: matches at the end of the string or
just before a single trailing newline. -/
def pyEndOk (u : List Char) : Bool := u.isEmpty || u == ['\n']

/- Model of re.search(r'@([\w-]+)\.(com|io|ai|co)', lowered_sender).
   Since '.' is not in the class [\w-], the greedy label run admits no useful
   backtracking: a match at an '@' happens exactly when the maximal [\w-] run
   after it is nonempty, followed by '.' and one of the alternation branches. -/

/-- Top-level-domain alternation of the sender-domain regex. -/
def tldList : List (List Char) := [chars "com", chars "io", chars "ai", chars "co"]

/-- Attempt of the sender-domain regex just after an '@'. -/
def tryDomain (s : List Char) : Option (List Char) :=
  let run := s.takeWhile isWordDash
  if run.isEmpty then none
  else
    match s.drop run.length with
    | '.' :: rest => if tldList.any (fun t => t.isPrefixOf rest) then some run else none
    | _ => none

/-- Leftmost search of the sender-domain regex; returns capture group 1. -/
def domainSearch : List Char → Option (List Char)
  | [] => none
  | '@' :: rest =>
    match tryDomain rest with
    | some g => some g
    | none => domainSearch rest
  | _ :: rest => domainSearch rest

/-- Lazy quantifier loop shared by the two capturing regexes: try capture
lengths from `lo` up to `hi` (all capture characters lie in the [\w\s] class
by construction of `hi`), returning the first length whose tail matches. -/
def lazyFind (tl : List Char → Bool) (t : List Char) (lo hi : Nat) : Option (List Char) :=
  (List.range' lo (hi + 1 - lo)).findSome?
    (fun n => if tl (t.drop n) then some (t.take n) else none)

/-- Greedy whitespace-run backtracking for a leading \s+ or \s* : try `k`
consumed whitespace characters from the maximal run downwards (minimum
`minWs`), returning the first success of the continuation. -/
def wsDown (cap : List Char → Option (List Char)) (t : List Char) (minWs : Nat) :
    Nat → Option (List Char)
  | 0 => if minWs == 0 then cap t else none
  | k + 1 =>
    if k + 1 < minWs then none
    else
      match cap (t.drop (k + 1)) with
      | some r => some r
      | none => wsDown cap t minWs k

/- Model of re.search(r'at\s+([\w\s]+?)(?:\s*[-–|]|$)', subject)  (no flags,
so case-sensitive).  In the tail alternation, [-–|] is disjoint from \s, so
only the maximal whitespace run can precede the separator. -/

/-- Tail alternation (?:\s*[-–|]|$) of the subject-company regex. -/
def r2TailOk (u : List Char) : Bool :=
  (match u.dropWhile isSpacePy with
   | c :: _ => isDashPipe c
   | [] => false)
  || pyEndOk u

/-- Lazy capture ([\w\s]+?) of the subject-company regex. -/
def r2Cap (t : List Char) : Option (List Char) :=
  lazyFind r2TailOk t 1 (t.takeWhile wordSpace).length

/-- Attempt of the subject-company regex after a leading 'a': requires 't',
then \s+ with backtracking, then the lazy capture. -/
def tryAtR2 : List Char → Option (List Char)
  | [] => none
  | c :: u => if c = 't' then wsDown r2Cap u 1 (u.takeWhile isSpacePy).length else none

/-- Leftmost search of the subject-company regex; returns capture group 1. -/
def subjSearchR2 : List Char → Option (List Char)
  | [] => none
  | c :: rest =>
    match (if c = 'a' then tryAtR2 rest else none) with
    | some g => some g
    | none => subjSearchR2 rest

/- Model of the first role regex (re.IGNORECASE)
   (?:for\s+|role:\s*|position:\s*)([\w\s]{5,40}?)(?:\s+at|\s*[-–|]|$).
   The three prefix alternatives begin with distinct letters, so at most one
   applies at a given start position. -/

/-- Tail alternation (?:\s+at|\s*[-–|]|$) of the first role regex; in \s+at
only the maximal whitespace run can precede 'a', and in \s*[-–|] only the
maximal run can precede the separator. -/
def r3TailOk (u : List Char) : Bool :=
  (let w := (u.takeWhile isSpacePy).length
   (w != 0) && ciStarts (chars "at") (u.drop w))
  || (match u.dropWhile isSpacePy with
      | c :: _ => isDashPipe c
      | [] => false)
  || pyEndOk u

/-- Lazy capture ([\w\s]{5,40}?) of the first role regex. -/
def r3Cap (t : List Char) : Option (List Char) :=
  lazyFind r3TailOk t 5 (min 40 (t.takeWhile wordSpace).length)

/-- Attempt of the first role regex at one start position. -/
def roleTryP1At (s : List Char) : Option (List Char) :=
  if ciStarts (chars "for") s then
    let t := s.drop 3
    wsDown r3Cap t 1 (t.takeWhile isSpacePy).length
  else if ciStarts (chars "role:") s then
    let t := s.drop 5
    wsDown r3Cap t 0 (t.takeWhile isSpacePy).length
  else if ciStarts (chars "position:") s then
    let t := s.drop 9
    wsDown r3Cap t 0 (t.takeWhile isSpacePy).length
  else none

/-- Leftmost search of the first role regex; returns capture group 1. -/
def roleP1Search : List Char → Option (List Char)
  | [] => none
  | c :: rest =>
    match roleTryP1At (c :: rest) with
    | some g => some g
    | none => roleP1Search rest

/- Model of the second role regex (re.IGNORECASE): an alternation of literal
title fragments, where full.stack contains a '.' wildcard. -/

/-- Pattern character of the fragment alternation: a literal (stored
lower-cased, matched case-insensitively) or the '.' wildcard. -/
inductive PC where
  | lit : Char → PC
  | anyc : PC
deriving DecidableEq

/-- Literal fragment pattern from a lower-case string. -/
def litPat (s : String) : List PC := s.data.map PC.lit

/-- The fragment alternation of the second role regex, in source order. -/
def fragPatterns : List (List PC) :=
  [litPat "software engineer", litPat "data engineer", litPat "ml engineer",
   litPat "machine learning", litPat "data scientist", litPat "backend",
   litPat "frontend", litPat "full" ++ [PC.anyc] ++ litPat "stack"]

/-- Match of one fragment pattern against a prefix of the text; the '.'
wildcard matches any character except newline. -/
def matchesPat : List PC → List Char → Bool
  | [], _ => true
  | _ :: _, [] => false
  | PC.lit c :: ps, x :: xs => (c == x.toLower) && matchesPat ps xs
  | PC.anyc :: ps, x :: xs => (x != '\n') && matchesPat ps xs

/-- Attempt of the fragment alternation at one start position; the capture is
the matched span of the input, with its original casing. -/
def fragAt (s : List Char) : Option (List Char) :=
  fragPatterns.findSome? (fun p => if matchesPat p s then some (s.take p.length) else none)

/-- Leftmost search of the second role regex; returns capture group 1. -/
def roleP2Search : List Char → Option (List Char)
  | [] => none
  | c :: rest =>
    match fragAt (c :: rest) with
    | some g => some g
    | none => roleP2Search rest

/- The classification functions of job_application_tracker.py (lines 72-144),
   translated statement by statement. -/

/-- Denylist of is_job_alert (source lines 74-79). -/
def spamIndicators : List (List Char) :=
  [chars "linkedin.com", chars "indeed.com", chars "glassdoor.com", chars "monster.com",
   chars "jobrapido", chars "jooble", chars "jobtome", chars "talent.com", chars "simplyhired",
   chars "ziprecruiter", chars "newsletter", chars "job alert", chars "new jobs",
   chars "recommended for you", chars "jobs matching", chars "daily digest"]

/-- is_job_alert (source lines 72-81). -/
def is_job_alert (email_from subject : List Char) : Bool :=
  let combined := pyLower (email_from ++ ' ' :: subject)
  spamIndicators.any (fun ind => containsSub ind combined)

/-- Subject-line fallback of extract_company (source lines 94-99). -/
def companyFromSubject (subject : List Char) : List Char :=
  match subjSearchR2 subject with
  | some g => pyTitle (pyStrip g)
  | none => chars "Unknown"

/-- extract_company (source lines 83-99). -/
def extract_company (email_from subject : List Char) : List Char :=
  match domainSearch (pyLower email_from) with
  | some g =>
    let company := stripVendors g
    if !company.isEmpty && decide (company.length > 2) then pyTitle company
    else companyFromSubject subject
  | none => companyFromSubject subject

/-- Rejection keyword list of categorize_status (source lines 108-110). -/
def rejection_kw : List (List Char) :=
  [chars "not selected", chars "unfortunately", chars "other candidates",
   chars "position filled", chars "not moving forward", chars "pursue other",
   chars "not be considered"]

/-- Assessment keyword list of categorize_status (source lines 111-112). -/
def assessment_kw : List (List Char) :=
  [chars "codesignal", chars "hackerrank", chars "coding challenge",
   chars "assessment", chars "technical test"]

/-- Interview keyword list of categorize_status (source lines 113-114). -/
def interview_kw : List (List Char) :=
  [chars "interview", chars "schedule", chars "meet with", chars "phone screen",
   chars "video call", chars "would like to speak"]

/-- Applied keyword list of categorize_status (source lines 115-116). -/
def applied_kw : List (List Char) :=
  [chars "application received", chars "thank you for applying",
   chars "confirm your application", chars "submitted successfully"]

/-- Lower-cased haystack of categorize_status (source lines 103-105):
full subject, a space, and the first 500 characters of the body. -/
def statusHaystack (subject body : List Char) : List Char :=
  pyLower subject ++ ' ' :: pyLower (if body.isEmpty then [] else body.take 500)

/-- Membership of any keyword of the list in the haystack. -/
def kwHit (kws : List (List Char)) (haystack : List Char) : Bool :=
  kws.any (fun kw => containsSub kw haystack)

/-- categorize_status (source lines 101-127). -/
def categorize_status (subject body : List Char) : List Char :=
  let combined := statusHaystack subject body
  if kwHit rejection_kw combined then chars "Rejected"
  else if kwHit assessment_kw combined then chars "Assessment"
  else if kwHit interview_kw combined then chars "Interview"
  else if kwHit applied_kw combined then chars "Applied"
  else chars "Other"

/-- The two role regex searches, in the order of the `patterns` list of
extract_role (source lines 131-134). -/
def rolePatterns : List (List Char → Option (List Char)) := [roleP1Search, roleP2Search]

/-- Loop of extract_role (source lines 136-143): for each pattern, search the
subject, then (if the body is nonempty) the first 200 characters of the body. -/
def roleLoop : List (List Char → Option (List Char)) → List Char → List Char →
    Option (List Char)
  | [], _, _ => none
  | p :: ps, subject, body =>
    match p subject with
    | some g => some g
    | none =>
      match (if body.isEmpty then none else p (body.take 200)) with
      | some g => some g
      | none => roleLoop ps subject body

/-- extract_role (source lines 129-144). -/
def extract_role (subject body : List Char) : List Char :=
  match roleLoop rolePatterns subject body with
  | some g => pyTitle (pyStrip g)
  | none => chars "Unknown"

/- The per-message classification of analyze_applications (source lines
   180-213) and the report of generate_report (source lines 309-321).
   The event date is datetime.fromtimestamp(ms/1000), a monotone function of
   the millisecond timestamp; it is modelled by the timestamp itself. -/

/-- Raw message record fed to the classification loop. -/
structure RawMessage where
  msgId : List Char
  sender : List Char
  subject : List Char
  body : List Char
  internalDate : Int
deriving DecidableEq

/-- Application event record produced per accepted message. -/
structure ApplicationEvent where
  date : Int
  company : List Char
  role : List Char
  status : List Char
  subject : List Char
deriving DecidableEq

/-- Body of the processing loop of analyze_applications (source lines
186-213) for one message: skip job alerts, otherwise build the event. -/
def processMessage (m : RawMessage) : Option ApplicationEvent :=
  if is_job_alert m.sender m.subject then none
  else
    some { date := m.internalDate,
           company := extract_company m.sender m.subject,
           role := extract_role m.subject m.body,
           status := categorize_status m.subject m.body,
           subject := m.subject }

/-- analyze_applications restricted to its classification core: the events
accumulated over the input messages. -/
def analyze_applications (msgs : List RawMessage) : List ApplicationEvent :=
  msgs.filterMap processMessage

/-- Cell of the persisted tabular output. -/
inductive Cell where
  | num : Int → Cell
  | txt : List Char → Cell
deriving DecidableEq

/-- Header of the persisted table, in source column order. -/
def headerRow : List (List Char) :=
  [chars "Date", chars "Company", chars "Role", chars "Status", chars "Subject"]

/-- Row of one event, in source column order. -/
def eventRow (e : ApplicationEvent) : List Cell :=
  [Cell.num e.date, Cell.txt e.company, Cell.txt e.role, Cell.txt e.status, Cell.txt e.subject]

/-- Ordering used by df.sort_values('Date', ascending=False). -/
def dateGe (a b : ApplicationEvent) : Prop := b.date ≤ a.date

instance : DecidableRel dateGe :=
  fun a b => inferInstanceAs (Decidable (b.date ≤ a.date))

instance : IsTotal ApplicationEvent dateGe :=
  ⟨fun a b => Int.le_total b.date a.date⟩

instance : IsTrans ApplicationEvent dateGe :=
  ⟨fun _ _ _ hab hbc => le_trans hbc hab⟩

/-- Sort of the event list by date descending. -/
def sortDesc (apps : List ApplicationEvent) : List ApplicationEvent :=
  List.insertionSort dateGe apps

/-- generate_report (source lines 309-321) restricted to the persisted
tabular output: None when there are no applications, otherwise the header
row followed by the data rows sorted by date descending. -/
def generate_report (apps : List ApplicationEvent) : Option (List (List Cell)) :=
  if apps.isEmpty then none
  else some (headerRow.map Cell.txt :: (sortDesc apps).map eventRow)

/- Exception-aware variants of the four core functions.  The only operation
   of these functions that can raise in the source language is .group(1) on
   the result of a failed search; it is modelled by reGroup1, which fails on
   a missing match.  Each variant mirrors the guards of its function. -/

/-- Access to capture group 1 of a search result; raises on a failed
search. -/
def reGroup1 : Option (List Char) → Except Unit (List Char)
  | some g => Except.ok g
  | none => Except.error ()

/-- Exception-aware is_job_alert: no fallible operation occurs. -/
def is_job_alertE (email_from subject : List Char) : Except Unit Bool :=
  Except.ok (is_job_alert email_from subject)

/-- Exception-aware subject-line fallback of extract_company. -/
def companyFromSubjectE (subject : List Char) : Except Unit (List Char) :=
  let m := subjSearchR2 subject
  if m.isSome then
    match reGroup1 m with
    | Except.error e => Except.error e
    | Except.ok g => Except.ok (pyTitle (pyStrip g))
  else Except.ok (chars "Unknown")

/-- Exception-aware extract_company. -/
def extract_companyE (email_from subject : List Char) : Except Unit (List Char) :=
  let m := domainSearch (pyLower email_from)
  if m.isSome then
    match reGroup1 m with
    | Except.error e => Except.error e
    | Except.ok g =>
      let company := stripVendors g
      if !company.isEmpty && decide (company.length > 2) then Except.ok (pyTitle company)
      else companyFromSubjectE subject
  else companyFromSubjectE subject

/-- Exception-aware categorize_status: no fallible operation occurs. -/
def categorize_statusE (subject body : List Char) : Except Unit (List Char) :=
  let combined := statusHaystack subject body
  if kwHit rejection_kw combined then Except.ok (chars "Rejected")
  else if kwHit assessment_kw combined then Except.ok (chars "Assessment")
  else if kwHit interview_kw combined then Except.ok (chars "Interview")
  else if kwHit applied_kw combined then Except.ok (chars "Applied")
  else Except.ok (chars "Other")

/-- Exception-aware loop of extract_role. -/
def roleLoopE : List (List Char → Option (List Char)) → List Char → List Char →
    Except Unit (List Char)
  | [], _, _ => Except.ok (chars "Unknown")
  | p :: ps, subject, body =>
    let m := p subject
    if m.isSome then
      match reGroup1 m with
      | Except.error e => Except.error e
      | Except.ok g => Except.ok (pyTitle (pyStrip g))
    else
      let m2 := if body.isEmpty then none else p (body.take 200)
      if m2.isSome then
        match reGroup1 m2 with
        | Except.error e => Except.error e
        | Except.ok g => Except.ok (pyTitle (pyStrip g))
      else roleLoopE ps subject body

/-- Exception-aware extract_role. -/
def extract_roleE (subject body : List Char) : Except Unit (List Char) :=
  roleLoopE rolePatterns subject body

/- Auxiliary definitions used only to state claims. -/

/-- Role extraction in the order asserted by the specification for the
amended ordering claim: for each pattern in source order, the subject is
searched before the body prefix. -/
def roleSpecOrder (subject body : List Char) : List Char :=
  match roleP1Search subject with
  | some g => pyTitle (pyStrip g)
  | none =>
    match (if body.isEmpty then none else roleP1Search (body.take 200)) with
    | some g => pyTitle (pyStrip g)
    | none =>
      match roleP2Search subject with
      | some g => pyTitle (pyStrip g)
      | none =>
        match (if body.isEmpty then none else roleP2Search (body.take 200)) with
        | some g => pyTitle (pyStrip g)
        | none => chars "Unknown"

/-- Test for a whitespace character at the head of the text. -/
def headIsSpace : List Char → Bool
  | [] => false
  | d :: _ => isSpacePy d

/-- Test for a lower-case 't' followed by a whitespace character at the head
of the text. -/
def startsWithTWs : List Char → Bool
  | [] => false
  | c :: u => (c == 't') && headIsSpace u

/-- Test for an occurrence of lower-case "at" followed by a whitespace
character anywhere in the text. -/
def hasAtWs : List Char → Bool
  | [] => false
  | c :: rest => ((c == 'a') && startsWithTWs rest) || hasAtWs rest

/- Helper lemmas. -/

/-- Substring containment agrees with the infix relation. -/
theorem containsSub_iff (needle hay : List Char) :
    containsSub needle hay = true ↔ needle <:+: hay := by
  induction hay with
  | nil => simp [containsSub, List.isEmpty_iff, List.infix_nil]
  | cons c rest ih =>
    simp [containsSub, ih, List.infix_cons_iff, List.isPrefixOf_iff_prefix]

/-- Lower-casing distributes over concatenation. -/
theorem pyLower_append (a b : List Char) :
    pyLower (a ++ b) = pyLower a ++ pyLower b := List.map_append _ _ _

/-- Title-casing preserves length. -/
theorem pyTitleAux_length (b : Bool) (l : List Char) :
    (pyTitleAux b l).length = l.length := by
  induction l generalizing b with
  | nil => rfl
  | cons c rest ih => by_cases h : c.isAlpha <;> simp [pyTitleAux, h, ih]

/-- Title-casing sends nonempty strings to nonempty strings. -/
theorem pyTitle_ne_nil {l : List Char} (h : l ≠ []) : pyTitle l ≠ [] := by
  intro hc
  apply h
  have hlen := pyTitleAux_length false l
  unfold pyTitle at hc
  rw [hc] at hlen
  exact List.length_eq_zero.mp hlen.symm

/-- A character that fails the predicate survives dropWhile. -/
theorem dropWhile_ne_nil_of_mem {p : Char → Bool} {l : List Char} {c : Char}
    (hm : c ∈ l) (hc : p c = false) : l.dropWhile p ≠ [] := by
  intro hnil
  have := List.dropWhile_eq_nil_iff.mp hnil c hm
  simp [hc] at this

/-- Stripping keeps a string containing a non-whitespace character
nonempty. -/
theorem pyStrip_ne_nil {l : List Char} {c : Char} (hm : c ∈ l)
    (hc : isSpacePy c = false) : pyStrip l ≠ [] := by
  unfold pyStrip
  have h1 : c ∈ l.dropWhile isSpacePy := by
    by_contra hno
    have hsplit := List.takeWhile_append_dropWhile (p := isSpacePy) (l := l)
    rw [← hsplit] at hm
    rcases List.mem_append.mp hm with h | h
    · exact absurd (List.mem_takeWhile_imp h) (by simp [hc])
    · exact hno h
  have h2 : c ∈ (l.dropWhile isSpacePy).reverse := List.mem_reverse.mpr h1
  have h3 := dropWhile_ne_nil_of_mem h2 hc
  simpa using h3

/-- A nonempty list that is not entirely whitespace contains a
non-whitespace character. -/
theorem exists_not_space {l : List Char} (h : l.all isSpacePy = false) :
    ∃ c ∈ l, isSpacePy c = false := by
  have := List.all_eq_false.mp h
  rcases this with ⟨c, hm, hc⟩
  exact ⟨c, hm, by simpa using hc⟩

/-- With no whitespace at the head, the whitespace run is empty. -/
theorem takeWhile_space_nil {u : List Char} (h : headIsSpace u = false) :
    u.takeWhile isSpacePy = [] := by
  cases u with
  | nil => rfl
  | cons d u' =>
    have hd : isSpacePy d = false := by simpa [headIsSpace] using h
    simp [List.takeWhile_cons, hd]

/-- The subject-company attempt fails when no 't'-plus-whitespace follows. -/
theorem tryAtR2_eq_none {rest : List Char} (h : startsWithTWs rest = false) :
    tryAtR2 rest = none := by
  cases rest with
  | nil => rfl
  | cons c u =>
    by_cases hc : c = 't'
    · subst hc
      have hu : headIsSpace u = false := by simpa [startsWithTWs] using h
      simp [tryAtR2, takeWhile_space_nil hu, wsDown]
    · simp [tryAtR2, hc]

/-- The subject-company regex fails on a subject with no lower-case "at"
followed by whitespace. -/
theorem subjSearchR2_eq_none {s : List Char} (h : hasAtWs s = false) :
    subjSearchR2 s = none := by
  induction s with
  | nil => rfl
  | cons c rest ih =>
    have hparts : ((c == 'a') && startsWithTWs rest) = false ∧ hasAtWs rest = false := by
      simpa [hasAtWs, Bool.or_eq_false_iff] using h
    by_cases hc : c = 'a'
    · subst hc
      have hsw : startsWithTWs rest = false := by simpa using hparts.1
      simp [subjSearchR2, tryAtR2_eq_none hsw, ih hparts.2]
    · simp [subjSearchR2, hc, ih hparts.2]

/-- The exception-aware role loop always returns normally, with the value of
the plain loop. -/
theorem roleLoopE_ok (ps : List (List Char → Option (List Char))) (s b : List Char) :
    roleLoopE ps s b =
      Except.ok (match roleLoop ps s b with
                 | some g => pyTitle (pyStrip g)
                 | none => chars "Unknown") := by
  induction ps with
  | nil => rfl
  | cons p ps ih =>
    cases hg : p s with
    | some g => simp [roleLoopE, roleLoop, hg, reGroup1]
    | none =>
      by_cases hb : b.isEmpty = true
      · simp [roleLoopE, roleLoop, hg, hb, reGroup1, ih]
      · cases hg2 : p (b.take 200) with
        | some g => simp [roleLoopE, roleLoop, hg, hb, hg2, reGroup1]
        | none => simp [roleLoopE, roleLoop, hg, hb, hg2, reGroup1, ih]

/-- The exception-aware subject fallback always returns normally. -/
theorem companyFromSubjectE_ok (s : List Char) :
    companyFromSubjectE s = Except.ok (companyFromSubject s) := by
  unfold companyFromSubjectE companyFromSubject
  cases h : subjSearchR2 s <;> simp [h, reGroup1]

/-- The exception-aware extract_company always returns normally. -/
theorem extract_companyE_ok (ef s : List Char) :
    extract_companyE ef s = Except.ok (extract_company ef s) := by
  unfold extract_companyE extract_company
  cases h : domainSearch (pyLower ef) with
  | none => simp [h, companyFromSubjectE_ok]
  | some g =>
    by_cases hc : (!(stripVendors g).isEmpty && decide ((stripVendors g).length > 2)) = true
    · simp [h, reGroup1, hc]
    · simp [h, reGroup1, hc, companyFromSubjectE_ok]

/-- The exception-aware categorize_status always returns normally. -/
theorem categorize_statusE_ok (s b : List Char) :
    categorize_statusE s b = Except.ok (categorize_status s b) := by
  unfold categorize_statusE categorize_status
  by_cases h1 : kwHit rejection_kw (statusHaystack s b) = true <;>
    by_cases h2 : kwHit assessment_kw (statusHaystack s b) = true <;>
      by_cases h3 : kwHit interview_kw (statusHaystack s b) = true <;>
        by_cases h4 : kwHit applied_kw (statusHaystack s b) = true <;>
          simp [h1, h2, h3, h4]

/- Claim theorems. -/

/-- C5: when the sender-domain label, after stripping the vendor substrings,
is empty or of length at most 2, extract_company falls through to the
subject "at ..." pattern; concretely, sender "jobs@acme.greenhouse.io" with
subject "Update on your application at Acme Corp - Thanks" yields
"Acme Corp". -/
theorem claim_C5_vendor_fallthrough :
    (∀ ef s g, domainSearch (pyLower ef) = some g →
      (stripVendors g).length ≤ 2 →
      extract_company ef s = companyFromSubject s) ∧
    extract_company (chars "jobs@acme.greenhouse.io")
      (chars "Update on your application at Acme Corp - Thanks") = chars "Acme Corp" := by
  constructor
  · intro ef s g hd hlen
    unfold extract_company
    simp only [hd]
    have hfalse : decide ((stripVendors g).length > 2) = false := by
      simp only [decide_eq_false_iff_not]
      omega
    simp [hfalse]
  · decide

/-- C5 witness: a sender whose whole domain label is the vendor name
"greenhouse" falls through to the subject pattern. -/
theorem claim_C5_witness :
    extract_company (chars "a@greenhouse.com") (chars "x at Foo - y") =
      companyFromSubject (chars "x at Foo - y") :=
  claim_C5_vendor_fallthrough.1 _ _ (chars "greenhouse") (by decide) (by decide)

/-- C7: the per-message classification is deterministic in the message
fields: two raw messages with identical sender, subject, body and timestamp
(possibly different identifiers) classify identically. -/
theorem claim_C7_deterministic (m m' : RawMessage)
    (hs : m.sender = m'.sender) (hj : m.subject = m'.subject)
    (hb : m.body = m'.body) (hd : m.internalDate = m'.internalDate) :
    processMessage m = processMessage m' := by
  unfold processMessage
  rw [hs, hj, hb, hd]

/-- C7 witness: two messages differing only in their identifier classify
identically. -/
theorem claim_C7_witness :
    processMessage { msgId := chars "idA", sender := chars "careers@acme.com",
                     subject := chars "hello", body := chars "", internalDate := 7 } =
    processMessage { msgId := chars "idB", sender := chars "careers@acme.com",
                     subject := chars "hello", body := chars "", internalDate := 7 } :=
  claim_C7_deterministic _ _ rfl rfl rfl rfl

/-- C8: on a nonempty event list, the persisted table of generate_report is
the header row Date, Company, Role, Status, Subject followed by one row per
event in the exact source column order, the rows are a permutation of the
full input set, and they are ordered by date descending. -/
theorem claim_C8_report (apps : List ApplicationEvent) (h : apps ≠ []) :
    generate_report apps =
      some (headerRow.map Cell.txt :: (sortDesc apps).map eventRow) ∧
    (sortDesc apps).Perm apps ∧
    List.Sorted dateGe (sortDesc apps) := by
  refine ⟨?_, ?_, ?_⟩
  · unfold generate_report
    simp [h]
  · exact List.perm_insertionSort dateGe apps
  · exact List.sorted_insertionSort dateGe apps

/-- Event used by the report witness. -/
def evA : ApplicationEvent :=
  { date := 5, company := chars "A", role := chars "R",
    status := chars "Applied", subject := chars "s1" }

/-- Second event used by the report witness. -/
def evB : ApplicationEvent :=
  { date := 9, company := chars "B", role := chars "Q",
    status := chars "Rejected", subject := chars "s2" }

/-- C8 witness: the report properties at a concrete two-event list. -/
theorem claim_C8_witness :
    generate_report [evA, evB] =
      some (headerRow.map Cell.txt :: (sortDesc [evA, evB]).map eventRow) ∧
    (sortDesc [evA, evB]).Perm [evA, evB] ∧
    List.Sorted dateGe (sortDesc [evA, evB]) :=
  claim_C8_report [evA, evB] (by simp)

/-- C9: totality of the four core functions: on every input the
exception-aware variants return normally, with the value of the plain
functions. -/
theorem claim_C9_total (ef s b : List Char) :
    is_job_alertE ef s = Except.ok (is_job_alert ef s) ∧
    extract_companyE ef s = Except.ok (extract_company ef s) ∧
    categorize_statusE s b = Except.ok (categorize_status s b) ∧
    extract_roleE s b = Except.ok (extract_role s b) := by
  refine ⟨rfl, extract_companyE_ok ef s, categorize_statusE_ok s b, ?_⟩
  unfold extract_roleE extract_role
  exact roleLoopE_ok rolePatterns s b

/-- C10: the subject pattern of extract_company is case-sensitive: if the
lowered sender has no domain match and the subject has no lower-case "at"
followed by whitespace, the result is "Unknown", even if the subject has a
capitalized "At ..." phrase. -/
theorem claim_C10_case_sensitive (ef s : List Char)
    (hd : domainSearch (pyLower ef) = none) (ha : hasAtWs s = false) :
    extract_company ef s = chars "Unknown" := by
  unfold extract_company
  simp only [hd]
  unfold companyFromSubject
  rw [subjSearchR2_eq_none ha]

/-- C10 witness: a subject with a capitalized "At Acme Corp" phrase still
yields "Unknown". -/
theorem claim_C10_witness :
    extract_company (chars "hello") (chars "Join us At Acme Corp - Today") =
      chars "Unknown" :=
  claim_C10_case_sensitive _ _ (by decide) (by decide)

/-- An infix of the left part is an infix of a concatenation. -/
theorem infix_append_left {l x y : List Char} (h : l <:+: x) : l <:+: x ++ y :=
  List.IsInfix.trans h (List.IsPrefix.isInfix (List.prefix_append x y))

/-- An infix of the right part is an infix of a concatenation. -/
theorem infix_append_right {l x y : List Char} (h : l <:+: y) : l <:+: x ++ y :=
  List.IsInfix.trans h (List.IsSuffix.isInfix (List.suffix_append x y))

/-- C2 (counterexample): with sender "job" and subject "alert", neither
field contains a denylisted substring, yet the noise filter returns true:
the indicator "job alert" spans the boundary of the concatenation.  This
refutes the claim that pairs with no denylisted substring in either field
yield false. -/
theorem claim_C2_counterexample :
    is_job_alert (chars "job") (chars "alert") = true ∧
    spamIndicators.all
      (fun kw => !containsSub kw (pyLower (chars "job")) &&
                 !containsSub kw (pyLower (chars "alert"))) = true :=
  ⟨by decide, by decide⟩

/-- C2 (amended): the noise filter returns true exactly when the lower-cased
concatenation of sender, a space and subject contains a denylisted
substring; containment in either single field implies true, but the
converse direction needs the combined string, since an indicator may span
the field boundary. -/
theorem claim_C2_noise_iff (sender subject : List Char) :
    (is_job_alert sender subject = true ↔
      ∃ kw ∈ spamIndicators, kw <:+: pyLower (sender ++ ' ' :: subject)) ∧
    (∀ kw ∈ spamIndicators,
      kw <:+: pyLower sender ∨ kw <:+: pyLower subject →
      is_job_alert sender subject = true) := by
  have hsplit : pyLower (sender ++ ' ' :: subject) =
      pyLower sender ++ ' ' :: pyLower subject := by
    rw [pyLower_append]; rfl
  constructor
  · unfold is_job_alert
    rw [List.any_eq_true]
    constructor
    · rintro ⟨kw, hm, hc⟩
      exact ⟨kw, hm, (containsSub_iff _ _).mp hc⟩
    · rintro ⟨kw, hm, hc⟩
      exact ⟨kw, hm, (containsSub_iff _ _).mpr hc⟩
  · rintro kw hm h
    unfold is_job_alert
    rw [List.any_eq_true]
    refine ⟨kw, hm, (containsSub_iff _ _).mpr ?_⟩
    rw [hsplit]
    rcases h with h | h
    · exact infix_append_left h
    · exact infix_append_right (List.infix_cons h)

/-- C2 witness: a denylisted substring in the sender field alone makes the
noise filter return true. -/
theorem claim_C2_witness :
    is_job_alert (chars "jobs@linkedin.com") (chars "hello") = true :=
  (claim_C2_noise_iff (chars "jobs@linkedin.com") (chars "hello")).2
    (chars "linkedin.com") (by decide) (Or.inl (by decide))

/-- A boolean conjunction with a true length test gives the length bound. -/
theorem stripVendors_long {g : List Char}
    (hc : (!(stripVendors g).isEmpty && decide ((stripVendors g).length > 2)) = true) :
    stripVendors g ≠ [] := by
  have h2 : (stripVendors g).length > 2 := by
    have h := hc
    simp only [Bool.and_eq_true, decide_eq_true_eq] at h
    exact h.2
  intro hnil
  rw [hnil] at h2
  simp at h2

/-- Case analysis of the subject fallback of extract_company: it yields the
sentinel, a nonempty string, or the title of an all-whitespace capture. -/
theorem companyFromSubject_cases (s : List Char) :
    companyFromSubject s = chars "Unknown" ∨ companyFromSubject s ≠ [] ∨
      ∃ g, subjSearchR2 s = some g ∧ g.all isSpacePy = true := by
  unfold companyFromSubject
  cases h : subjSearchR2 s with
  | none => left; rfl
  | some g =>
    by_cases hall : g.all isSpacePy = true
    · right; right; exact ⟨g, rfl, hall⟩
    · right; left
      have hfalse : g.all isSpacePy = false := by simpa using hall
      rcases exists_not_space hfalse with ⟨c, hm, hcs⟩
      exact pyTitle_ne_nil (pyStrip_ne_nil hm hcs)

/-- C3 (counterexample): with the whitespace-only captures of subject
"at  -" and of subject "for      -", both extractors return the empty
string, refuting the claim that company and role are never empty. -/
theorem claim_C3_counterexample :
    extract_company (chars "") (chars "at  -") = [] ∧
    extract_role (chars "for      -") (chars "") = [] :=
  ⟨by decide, by decide⟩

/-- C3 (amended): each extractor returns the sentinel "Unknown" or a
nonempty value, except when the winning regex capture consists entirely of
whitespace, in which case stripping yields the empty string. -/
theorem claim_C3_nonempty (ef s b : List Char) :
    (extract_company ef s = chars "Unknown" ∨ extract_company ef s ≠ [] ∨
      ∃ g, subjSearchR2 s = some g ∧ g.all isSpacePy = true) ∧
    (extract_role s b = chars "Unknown" ∨ extract_role s b ≠ [] ∨
      ∃ g, roleLoop rolePatterns s b = some g ∧ g.all isSpacePy = true) := by
  constructor
  · unfold extract_company
    cases hd : domainSearch (pyLower ef) with
    | none => exact companyFromSubject_cases s
    | some g =>
      by_cases hc : (!(stripVendors g).isEmpty && decide ((stripVendors g).length > 2)) = true
      · right; left
        simp only [hc, if_true]
        exact pyTitle_ne_nil (stripVendors_long hc)
      · simp only [hc, if_false]
        exact companyFromSubject_cases s
  · unfold extract_role
    cases h : roleLoop rolePatterns s b with
    | none => left; rfl
    | some g =>
      by_cases hall : g.all isSpacePy = true
      · right; right; exact ⟨g, rfl, hall⟩
      · right; left
        have hfalse : g.all isSpacePy = false := by simpa using hall
        rcases exists_not_space hfalse with ⟨c, hm, hcs⟩
        exact pyTitle_ne_nil (pyStrip_ne_nil hm hcs)

/-- C4: categorize_status tests the four keyword sets in strict priority
order Rejected, Assessment, Interview, Applied over the lower-cased
haystack of full subject plus first 500 body characters, returning the
first category with a keyword present and Other when none is; a haystack
containing "unfortunately" yields Rejected even alongside "interview", and
the CodeSignal subject yields Assessment. -/
theorem claim_C4_status_priority :
    (∀ s b, kwHit rejection_kw (statusHaystack s b) = true →
      categorize_status s b = chars "Rejected") ∧
    (∀ s b, kwHit rejection_kw (statusHaystack s b) = false →
      kwHit assessment_kw (statusHaystack s b) = true →
      categorize_status s b = chars "Assessment") ∧
    (∀ s b, kwHit rejection_kw (statusHaystack s b) = false →
      kwHit assessment_kw (statusHaystack s b) = false →
      kwHit interview_kw (statusHaystack s b) = true →
      categorize_status s b = chars "Interview") ∧
    (∀ s b, kwHit rejection_kw (statusHaystack s b) = false →
      kwHit assessment_kw (statusHaystack s b) = false →
      kwHit interview_kw (statusHaystack s b) = false →
      kwHit applied_kw (statusHaystack s b) = true →
      categorize_status s b = chars "Applied") ∧
    (∀ s b, kwHit rejection_kw (statusHaystack s b) = false →
      kwHit assessment_kw (statusHaystack s b) = false →
      kwHit interview_kw (statusHaystack s b) = false →
      kwHit applied_kw (statusHaystack s b) = false →
      categorize_status s b = chars "Other") ∧
    (∀ s b, containsSub (chars "unfortunately") (statusHaystack s b) = true →
      containsSub (chars "interview") (statusHaystack s b) = true →
      categorize_status s b = chars "Rejected") ∧
    categorize_status (chars "CodeSignal Assessment Invitation - Interview Process")
      (chars "") = chars "Assessment" := by
  refine ⟨?_, ?_, ?_, ?_, ?_, ?_, by decide⟩
  · intro s b h1
    simp [categorize_status, h1]
  · intro s b h1 h2
    simp [categorize_status, h1, h2]
  · intro s b h1 h2 h3
    simp [categorize_status, h1, h2, h3]
  · intro s b h1 h2 h3 h4
    simp [categorize_status, h1, h2, h3, h4]
  · intro s b h1 h2 h3 h4
    simp [categorize_status, h1, h2, h3, h4]
  · intro s b hu _
    have h1 : kwHit rejection_kw (statusHaystack s b) = true := by
      unfold kwHit
      rw [List.any_eq_true]
      exact ⟨chars "unfortunately", by decide, hu⟩
    simp [categorize_status, h1]

/-- C4 witness: one concrete instantiation per priority branch. -/
theorem claim_C4_witness :
    categorize_status (chars "unfortunately") (chars "") = chars "Rejected" ∧
    categorize_status (chars "codesignal") (chars "") = chars "Assessment" ∧
    categorize_status (chars "interview") (chars "") = chars "Interview" ∧
    categorize_status (chars "thank you for applying") (chars "") = chars "Applied" ∧
    categorize_status (chars "nothing here") (chars "") = chars "Other" :=
  ⟨claim_C4_status_priority.1 _ _ (by decide),
   claim_C4_status_priority.2.1 _ _ (by decide) (by decide),
   claim_C4_status_priority.2.2.1 _ _ (by decide) (by decide) (by decide),
   claim_C4_status_priority.2.2.2.1 _ _ (by decide) (by decide) (by decide) (by decide),
   claim_C4_status_priority.2.2.2.2.1 _ _ (by decide) (by decide) (by decide) (by decide)⟩

/-- C1 (counterexample): subject "backend" matches only the second role
pattern, body "for senior manager - hello" matches the first; extract_role
returns the body's pattern-1 value "Senior Manager", not the subject's
pattern-2 value, refuting the claimed subject-before-body order across both
patterns. -/
theorem claim_C1_counterexample :
    roleP1Search (chars "backend") = none ∧
    roleP2Search (chars "backend") = some (chars "backend") ∧
    extract_role (chars "backend") (chars "for senior manager - hello") =
      chars "Senior Manager" ∧
    extract_role (chars "backend") (chars "for senior manager - hello") ≠
      pyTitle (pyStrip (chars "backend")) :=
  ⟨by decide, by decide, by decide, by decide⟩

/-- C1 (amended): the winning role match is determined pattern-first:
pattern 1 against the subject, then pattern 1 against the first 200 body
characters, then pattern 2 against the subject, then pattern 2 against the
body prefix; so a body that matches pattern 1 wins over a subject that
matches only pattern 2. -/
theorem claim_C1_role_order (subject body : List Char) :
    extract_role subject body = roleSpecOrder subject body := by
  unfold extract_role roleSpecOrder rolePatterns
  cases h1 : roleP1Search subject with
  | some g => simp [roleLoop, h1]
  | none =>
    by_cases hb : body.isEmpty = true
    · simp only [roleLoop, h1, hb, if_true]
      cases h2 : roleP2Search subject <;> simp [h2]
    · simp only [roleLoop, h1, hb, if_false]
      cases h1b : roleP1Search (body.take 200) with
      | some g => simp
      | none =>
        cases h2 : roleP2Search subject with
        | some g => simp [h2]
        | none =>
          simp only [h2, hb, if_false]
          cases h2b : roleP2Search (body.take 200) <;> simp

/-- Noise message of the end-to-end example. -/
def msgNoise : RawMessage :=
  { msgId := chars "m1", sender := chars "jobs@indeed.com",
    subject := chars "New opportunities for you", body := chars "",
    internalDate := 1000 }

/-- Rejection message of the end-to-end example. -/
def msgRejected : RawMessage :=
  { msgId := chars "m2", sender := chars "recruiting@globex.com",
    subject := chars "Unfortunately, we have decided to move forward with other candidates",
    body := chars "", internalDate := 2000 }

/-- Applied message of the end-to-end example. -/
def msgApplied : RawMessage :=
  { msgId := chars "m3", sender := chars "careers@acme.com",
    subject := chars "Thank you for applying to Acme - Software Engineer",
    body := chars "", internalDate := 3000 }

/-- C6: on the three-message example, the pipeline produces exactly two
events with statuses Rejected and Applied, and the noise message from
jobs@indeed.com produces no event. -/
theorem claim_C6_end_to_end :
    (analyze_applications [msgNoise, msgRejected, msgApplied]).length = 2 ∧
    (analyze_applications [msgNoise, msgRejected, msgApplied]).map
      (fun e => e.status) = [chars "Rejected", chars "Applied"] ∧
    processMessage msgNoise = none :=
  ⟨by decide, by decide, by decide⟩
